import Mathlib

/-!
Verification of the `mofu-mw` middleware collection.

The `timeout` package wraps a handler invocation in a deadline: a derived
context with a timeout, a `context.AfterFunc` callback guarded by a
`sync.Once`, a header-written probe, and a final reconciliation of the
handler's error with the error captured by the timeout write.

The concurrency of `timeout.Sparkle` is embedded as a small-step trace
semantics: a request execution is a list of atomic events (deadline expiry,
the registered callback's probe and write, handler writes, handler return,
the adapter's cancel, the adapter's final read), and a step function folds
the events over an explicit state.  The step function is translated from
`src/timeout/timeout.go`; the response sink and the write-deadline probe are
modelled from the spec's middleware contract (spec section 6 and 4.3), since
the host framework is an external collaborator of this repository.

The `reqid` package is embedded directly as a pure function of the request
headers and of the byte stream read from the random source.
-/

namespace timeout

/-- Embeds `timeout.Config` from `src/timeout/timeout.go`.  `time.Duration`
is a count of nanoseconds, embedded as `Nat`. -/
structure Config where
  Duration : Nat
  Code : Nat
  Message : String
deriving DecidableEq, Repr

/-- Go's `time.Second` in nanoseconds. -/
def timeSecond : Nat := 1000000000

/-- Go's `http.StatusRequestTimeout`. -/
def statusRequestTimeout : Nat := 408

/-- The default configuration built at the top of `Sparkle`:
`Config{Duration: 5 * time.Second, Code: http.StatusRequestTimeout,
Message: "Request timeout"}`. -/
def defaultConfig : Config :=
  { Duration := 5 * timeSecond
    Code := statusRequestTimeout
    Message := "Request timeout" }

/-- Embeds the variadic-config resolution at the top of `timeout.Sparkle`:
start from the default and, when a config is supplied, replace it wholesale
(`if len(config) > 0 { cfg = config[0] }`). -/
def sparkleConfig (config : List Config) : Config :=
  match config with
  | [] => defaultConfig
  | c :: _ => c

/-- One atomic event of a request execution.  The main goroutine performs
`hwrite`/`hret`/`cancel`/`aread` in program order; `expire` is the context's
deadline elapsing; `cbProbe` and `cbWrite` are the two halves of the body of
the callback registered with `context.AfterFunc` (entering the `sync.Once`
and probing, then performing the guarded timeout write).  The `fails` flag
on `cbWrite` is the transport's verdict on the `c.String` call. -/
inductive Ev where
  | expire
  | cbProbe
  | cbWrite (fails : Bool)
  | hwrite (status : Nat) (msg : String)
  | hret (e : Option String)
  | cancel
  | aread
deriving DecidableEq, Repr

/-- The shared state of one request execution: the response sink, the
`sync.Once` gate, the captured `timeoutErr`, the derived context, and the
adapter's view of the handler. -/
structure St where
  /-- the sink has committed a start-of-response (status line sent) -/
  started : Bool
  /-- number of start-of-response events the sink has received -/
  startEvents : Nat
  /-- the response committed to the client, if any -/
  response : Option (Nat × String)
  /-- the `sync.Once` has been entered -/
  onceDone : Bool
  /-- number of callers to whom the once-gate returned entry -/
  enterCount : Nat
  /-- result of `isHeaderWritten` recorded by the callback on entry -/
  probed : Option Bool
  /-- the callback executed its guarded write branch -/
  cbWrote : Bool
  /-- the `timeoutErr` variable (`none` is Go's nil error) -/
  timeoutErr : Option String
  /-- the derived context's deadline has elapsed -/
  expired : Bool
  /-- `cancel` has been invoked on the derived context -/
  cancelled : Bool
  /-- `c.Abort()` has been called -/
  aborted : Bool
  /-- the handler has returned from `c.Next()` -/
  handlerDone : Bool
  /-- the error returned by the handler -/
  handlerErr : Option String
  /-- the adapter's returned value, once it returns -/
  final : Option (Option String)
deriving DecidableEq, Repr

/-- The state at request entry. -/
def initSt : St :=
  { started := false, startEvents := 0, response := none
    onceDone := false, enterCount := 0, probed := none
    cbWrote := false, timeoutErr := none
    expired := false, cancelled := false, aborted := false
    handlerDone := false, handlerErr := none, final := none }

/-- Modelled from the spec: the host's `String(status, body)` write on the
response sink (spec section 6).  A write on a sink whose response has not
started commits the status and body and is the sink's one
start-of-response event; a write on a started sink does not start a second
response (the transport emits one status line per request); a failing write
commits nothing. -/
def sinkWrite (st : St) (status : Nat) (msg : String) (fails : Bool) : St :=
  if fails then st
  else if st.started then st
  else { st with
          started := true
          startEvents := st.startEvents + 1
          response := some (status, msg) }

/-- The error value returned by a sink write: `none` (nil) on success. -/
def writeErr (fails : Bool) : Option String :=
  if fails then some "write error" else none

/-- Modelled from the spec: the zero write-deadline probe on the response
controller, which fails exactly when output has already been committed
(spec section 4.3 interprets failure of this operation as evidence that
output has started). -/
def setWriteDeadlineZero (st : St) : Option String :=
  if st.started then some "response already started" else none

/-- Embeds `isHeaderWritten` from `src/timeout/timeout.go`:
`return rc.SetWriteDeadline(time.Now().Add(0)) != nil`. -/
def isHeaderWritten (st : St) : Bool :=
  setWriteDeadlineZero st != none

/-- One atomic step of the request execution, translated from
`timeout.Sparkle`:
* `expire`: the deadline of the context created by `context.WithTimeout`
  elapses; cancellation stops the timer, so this is inert after `cancel`;
* `cbProbe`: the `context.AfterFunc` callback starts.  Per Go semantics it
  can only run once the context is done — deadline elapsed **or**
  cancelled.  It enters the `sync.Once` (inert if already entered) and
  records `isHeaderWritten`;
* `cbWrite fails`: the body guarded by the probe: if the probe saw an
  unstarted response, `timeoutErr = c.String(cfg.Code, cfg.Message)` and
  `c.Abort()`;
* `hwrite`: a write issued by the handler through the sink;
* `hret`: the handler returns from `c.Next()` with its error;
* `cancel`: the adapter calls `cancel()`;
* `aread`: the adapter executes `if timeoutErr != nil { return timeoutErr };
  return err`. -/
def step (cfg : Config) (st : St) : Ev → St
  | .expire =>
      if st.cancelled then st else { st with expired := true }
  | .cbProbe =>
      if (st.expired || st.cancelled) && !st.onceDone then
        { st with
            onceDone := true
            enterCount := st.enterCount + 1
            probed := some (isHeaderWritten st) }
      else st
  | .cbWrite fails =>
      if st.probed == some false && !st.cbWrote then
        { sinkWrite st cfg.Code cfg.Message fails with
            cbWrote := true
            aborted := true
            timeoutErr := writeErr fails }
      else st
  | .hwrite status msg => sinkWrite st status msg false
  | .hret e => { st with handlerDone := true, handlerErr := e }
  | .cancel => { st with cancelled := true }
  | .aread =>
      { st with
          final := some (if st.timeoutErr.isSome then st.timeoutErr
                         else st.handlerErr) }

/-- Run one request execution from the initial state over a trace of
events. -/
def run (cfg : Config) (t : List Ev) : St :=
  List.foldl (step cfg) initSt t

/-- The program order of the adapter's own goroutine, as a phase automaton:
phase 0 while the handler runs (it may write), phase 1 after the handler
returned, phase 2 after `cancel()`, phase 3 after the adapter computed its
return value.  Events of the timer and of the callback may interleave
anywhere. -/
def mainPhase (p : Nat) : Ev → Option Nat
  | .hwrite _ _ => if p = 0 then some 0 else none
  | .hret _ => if p = 0 then some 1 else none
  | .cancel => if p = 1 then some 2 else none
  | .aread => if p = 2 then some 3 else none
  | .expire => some p
  | .cbProbe => some p
  | .cbWrite _ => some p

/-- Fold of the phase automaton over a trace. -/
def phaseFold (acc : Option Nat) (t : List Ev) : Option Nat :=
  List.foldl (fun a e => a.bind fun p => mainPhase p e) acc t

/-- A trace is well formed when the adapter's goroutine follows the program
order of `Sparkle`: handler writes, then the handler's return, then
`cancel()`, then the adapter's return. -/
def MainWF (t : List Ev) : Prop :=
  phaseFold (some 0) t = some 3

instance : DecidablePred MainWF := fun t =>
  inferInstanceAs (Decidable (phaseFold (some 0) t = some 3))

/-- The spec's `CompletionState`. -/
inductive CState where
  | pending
  | handlerWon
  | timeoutWon
deriving DecidableEq, Repr

/-- The spec's completion state, read off the execution state: the timeout
side won when the callback executed its guarded write branch; the handler
won when it returned without the timeout side having done so. -/
def completion (st : St) : CState :=
  if st.cbWrote then .timeoutWon
  else if st.handlerDone then .handlerWon
  else .pending

lemma foldl_pres (cfg : Config) (P : St → Prop)
    (h : ∀ st e, P st → P (step cfg st e)) :
    ∀ (t : List Ev) (st : St), P st → P (List.foldl (step cfg) st t) := by
  intro t
  induction t with
  | nil => intro st hst; exact hst
  | cons e t ih =>
      intro st hst
      exact ih (step cfg st e) (h st e hst)

lemma started_sticky (cfg : Config) (st : St) (e : Ev) (h : st.started = true) :
    (step cfg st e).started = true := by
  cases e <;> simp [step, sinkWrite, h] <;> split <;> simp [h]

lemma sink_frozen_step (cfg : Config) (st : St) (e : Ev) (h : st.started = true) :
    (step cfg st e).started = true ∧
    (step cfg st e).response = st.response ∧
    (step cfg st e).startEvents = st.startEvents := by
  cases e <;> simp [step, sinkWrite, h] <;> split <;> simp [h]

lemma cancelled_sticky (cfg : Config) (st : St) (e : Ev) (h : st.cancelled = true) :
    (step cfg st e).cancelled = true := by
  cases e <;> simp [step, sinkWrite, h] <;> (try split_ifs) <;> simp [h]

lemma handlerDone_sticky (cfg : Config) (st : St) (e : Ev)
    (h : st.handlerDone = true) : (step cfg st e).handlerDone = true := by
  cases e <;> simp [step, sinkWrite, h] <;> (try split_ifs) <;> simp [h]

lemma final_sticky (cfg : Config) (st : St) (e : Ev)
    (h : st.final.isSome = true) : (step cfg st e).final.isSome = true := by
  cases e <;> simp [step, sinkWrite, h] <;> (try split_ifs) <;> simp [h]

/-- The counting invariant behind the exactly-once guarantees: the once-gate
admits at most one caller and the sink commits at most one start of
response. -/
def countInv (st : St) : Prop :=
  st.startEvents ≤ 1 ∧ (st.started = false → st.startEvents = 0) ∧
  st.enterCount ≤ 1 ∧ (st.onceDone = false → st.enterCount = 0)

lemma step_countInv (cfg : Config) (st : St) (e : Ev) (h : countInv st) :
    countInv (step cfg st e) := by
  obtain ⟨h1, h2, h3, h4⟩ := h
  cases e <;>
    simp only [step, sinkWrite, countInv, writeErr] <;>
    (try split_ifs) <;>
    simp_all

lemma phaseFold_none : ∀ t : List Ev, phaseFold none t = none := by
  intro t
  induction t with
  | nil => rfl
  | cons e t ih => simpa [phaseFold, List.foldl] using ih

lemma phaseFold_append (acc : Option Nat) (t u : List Ev) :
    phaseFold acc (t ++ u) = phaseFold (phaseFold acc t) u := by
  simp [phaseFold, List.foldl_append]

/-- Relation between the adapter's phase and the execution state: once the
handler has returned (phase 1) `handlerDone` holds, once `cancel()` ran
(phase 2) the scope is cancelled, once the adapter computed its result
(phase 3) `final` is set. -/
def phaseInv (p : Nat) (st : St) : Prop :=
  (1 ≤ p → st.handlerDone = true) ∧ (2 ≤ p → st.cancelled = true) ∧
  (3 ≤ p → st.final.isSome = true)

lemma phase_step_inv (cfg : Config) (st : St) (e : Ev) (p q : Nat)
    (hp : mainPhase p e = some q) (h : phaseInv p st) :
    phaseInv q (step cfg st e) := by
  obtain ⟨h1, h2, h3⟩ := h
  cases e with
  | hwrite status msg =>
      by_cases h0 : p = 0 <;> simp [mainPhase, h0] at hp
      subst hp
      exact ⟨fun h => absurd h (by omega), fun h => absurd h (by omega),
        fun h => absurd h (by omega)⟩
  | hret e0 =>
      by_cases h0 : p = 0 <;> simp [mainPhase, h0] at hp
      subst hp
      refine ⟨fun _ => by simp [step], fun h => absurd h (by omega),
        fun h => absurd h (by omega)⟩
  | cancel =>
      by_cases h0 : p = 1 <;> simp [mainPhase, h0] at hp
      subst hp h0
      refine ⟨fun _ => by simp [step]; exact h1 (by omega),
        fun _ => by simp [step], fun h => absurd h (by omega)⟩
  | aread =>
      by_cases h0 : p = 2 <;> simp [mainPhase, h0] at hp
      subst hp h0
      refine ⟨fun _ => by simp [step]; exact h1 (by omega),
        fun _ => by simp [step]; exact h2 (by omega), fun _ => by simp [step]⟩
  | expire =>
      simp [mainPhase] at hp
      subst hp
      exact ⟨fun hq => handlerDone_sticky cfg st _ (h1 hq),
        fun hq => cancelled_sticky cfg st _ (h2 hq),
        fun hq => final_sticky cfg st _ (h3 hq)⟩
  | cbProbe =>
      simp [mainPhase] at hp
      subst hp
      exact ⟨fun hq => handlerDone_sticky cfg st _ (h1 hq),
        fun hq => cancelled_sticky cfg st _ (h2 hq),
        fun hq => final_sticky cfg st _ (h3 hq)⟩
  | cbWrite fails =>
      simp [mainPhase] at hp
      subst hp
      exact ⟨fun hq => handlerDone_sticky cfg st _ (h1 hq),
        fun hq => cancelled_sticky cfg st _ (h2 hq),
        fun hq => final_sticky cfg st _ (h3 hq)⟩

lemma phase_run (cfg : Config) :
    ∀ (t : List Ev) (p : Nat) (st : St), phaseInv p st →
      ∀ q, phaseFold (some p) t = some q →
        phaseInv q (List.foldl (step cfg) st t) := by
  intro t
  induction t with
  | nil =>
      intro p st h q hq
      simp [phaseFold] at hq
      subst hq
      exact h
  | cons e t ih =>
      intro p st h q hq
      have hone : phaseFold (some p) [e] = mainPhase p e := by
        simp [phaseFold, List.foldl]
      rw [show (e :: t) = [e] ++ t from rfl, phaseFold_append, hone] at hq
      cases hme : mainPhase p e with
      | none =>
          rw [hme, phaseFold_none] at hq
          exact absurd hq (by simp)
      | some p' =>
          have h' := phase_step_inv cfg st e p p' hme h
          rw [hme] at hq
          exact ih p' (step cfg st e) h' q hq

lemma countInv_init : countInv initSt := by
  simp [countInv, initSt]

lemma phaseInv_zero (st : St) : phaseInv 0 st :=
  ⟨fun h => absurd h (by omega), fun h => absurd h (by omega),
    fun h => absurd h (by omega)⟩

lemma run_countInv (cfg : Config) (t : List Ev) : countInv (run cfg t) :=
  foldl_pres cfg countInv (step_countInv cfg) t initSt countInv_init

lemma run_main (cfg : Config) (t : List Ev) (h : MainWF t) :
    (run cfg t).handlerDone = true ∧ (run cfg t).cancelled = true ∧
    (run cfg t).final.isSome = true := by
  have hinv := phase_run cfg t 0 initSt (phaseInv_zero initSt) 3 h
  exact ⟨hinv.1 (by omega), hinv.2.1 (by omega), hinv.2.2 (by omega)⟩

/-- After the prefix in which the deadline elapses and the registered
callback runs to completion with a successful write, the sink holds the
configured timeout response, it stays committed, and the start-of-response
count stays one, whatever happens afterwards. -/
lemma timeoutPath_commits (cfg : Config) (rest : List Ev) :
    (run cfg (Ev.expire :: Ev.cbProbe :: Ev.cbWrite false :: rest)).started = true ∧
    (run cfg (Ev.expire :: Ev.cbProbe :: Ev.cbWrite false :: rest)).response
        = some (cfg.Code, cfg.Message) ∧
    (run cfg (Ev.expire :: Ev.cbProbe :: Ev.cbWrite false :: rest)).startEvents = 1 := by
  have h3 : run cfg (Ev.expire :: Ev.cbProbe :: Ev.cbWrite false :: rest)
      = List.foldl (step cfg)
          (step cfg (step cfg (step cfg initSt Ev.expire) Ev.cbProbe)
            (Ev.cbWrite false)) rest := rfl
  have hfields :
      (step cfg (step cfg (step cfg initSt Ev.expire) Ev.cbProbe)
        (Ev.cbWrite false)).started = true ∧
      (step cfg (step cfg (step cfg initSt Ev.expire) Ev.cbProbe)
        (Ev.cbWrite false)).response = some (cfg.Code, cfg.Message) ∧
      (step cfg (step cfg (step cfg initSt Ev.expire) Ev.cbProbe)
        (Ev.cbWrite false)).startEvents = 1 := by
    simp [step, initSt, isHeaderWritten, setWriteDeadlineZero, sinkWrite, writeErr]
  rw [h3]
  exact foldl_pres cfg
    (fun st => st.started = true ∧ st.response = some (cfg.Code, cfg.Message) ∧
      st.startEvents = 1)
    (fun st e hp => by
      obtain ⟨ha, hb, hc⟩ := hp
      obtain ⟨f1, f2, f3⟩ := sink_frozen_step cfg st e ha
      exact ⟨f1, f2.trans hb, f3.trans hc⟩)
    rest _ hfields

/-- Claim C1: for every request, the Completion Guard admits at most one of
the two racing paths: under any interleaving of the expiry callback and the
handler's completion the once-gate grants entry to at most one caller, the
completion state ends as exactly one of `handlerWon` or `timeoutWon` (never
`pending`), and the response sink receives at most one start-of-response
event. -/
theorem c1_completion_guard (cfg : Config) (t : List Ev) (h : MainWF t) :
    (run cfg t).enterCount ≤ 1 ∧
    (run cfg t).startEvents ≤ 1 ∧
    completion (run cfg t) ≠ CState.pending ∧
    (completion (run cfg t) = CState.handlerWon ∨
      completion (run cfg t) = CState.timeoutWon) := by
  have hc := run_countInv cfg t
  have hd := (run_main cfg t h).1
  have hcomp : completion (run cfg t) = CState.handlerWon ∨
      completion (run cfg t) = CState.timeoutWon := by
    cases hb : (run cfg t).cbWrote
    · left; simp [completion, hb, hd]
    · right; simp [completion, hb]
  have hne : completion (run cfg t) ≠ CState.pending := by
    rcases hcomp with he | he <;> rw [he] <;> simp
  exact ⟨hc.2.2.1, hc.1, hne, hcomp⟩

/-- Witness for C1 at a concrete interleaving. -/
theorem c1_completion_guard_w :
    MainWF [Ev.hret none, Ev.cancel, Ev.aread] ∧
    ((run defaultConfig [Ev.hret none, Ev.cancel, Ev.aread]).enterCount ≤ 1 ∧
     (run defaultConfig [Ev.hret none, Ev.cancel, Ev.aread]).startEvents ≤ 1 ∧
     completion (run defaultConfig [Ev.hret none, Ev.cancel, Ev.aread])
        ≠ CState.pending ∧
     (completion (run defaultConfig [Ev.hret none, Ev.cancel, Ev.aread])
        = CState.handlerWon ∨
      completion (run defaultConfig [Ev.hret none, Ev.cancel, Ev.aread])
        = CState.timeoutWon)) :=
  ⟨by decide,
   c1_completion_guard defaultConfig [Ev.hret none, Ev.cancel, Ev.aread] (by decide)⟩

/-- Claim C2 (code bug): `context.AfterFunc` runs its callback when the
context becomes done for any reason, including cancellation.  On the valid
trace in which the handler completes without writing and the adapter then
cancels, the deadline never elapses and yet the callback runs, passes the
probe, and commits the 408 timeout response to the sink — the timeout path
writes even though the handler finished well before the deadline. -/
theorem c2_cancel_fires_expiry_callback :
    MainWF [Ev.hret none, Ev.cancel, Ev.cbProbe, Ev.cbWrite false, Ev.aread] ∧
    Ev.expire ∉ [Ev.hret none, Ev.cancel, Ev.cbProbe, Ev.cbWrite false, Ev.aread] ∧
    (run defaultConfig
      [Ev.hret none, Ev.cancel, Ev.cbProbe, Ev.cbWrite false, Ev.aread]).expired
        = false ∧
    (run defaultConfig
      [Ev.hret none, Ev.cancel, Ev.cbProbe, Ev.cbWrite false, Ev.aread]).cbWrote
        = true ∧
    (run defaultConfig
      [Ev.hret none, Ev.cancel, Ev.cbProbe, Ev.cbWrite false, Ev.aread]).startEvents
        = 1 ∧
    (run defaultConfig
      [Ev.hret none, Ev.cancel, Ev.cbProbe, Ev.cbWrite false, Ev.aread]).response
        = some (408, "Request timeout") := by decide

/-- Claim C3 (counterexample): on the valid trace where the timeout path
wins the race and its write succeeds, `timeoutErr` is nil, so the adapter
returns the handler's own error "boom": the handler's return value is not
discarded in favour of the captured `TimeoutOutcome`. -/
theorem c3_counterexample :
    MainWF [Ev.expire, Ev.cbProbe, Ev.cbWrite false, Ev.hret (some "boom"),
      Ev.cancel, Ev.aread] ∧
    completion (run defaultConfig [Ev.expire, Ev.cbProbe, Ev.cbWrite false,
      Ev.hret (some "boom"), Ev.cancel, Ev.aread]) = CState.timeoutWon ∧
    (run defaultConfig [Ev.expire, Ev.cbProbe, Ev.cbWrite false,
      Ev.hret (some "boom"), Ev.cancel, Ev.aread]).timeoutErr = none ∧
    (run defaultConfig [Ev.expire, Ev.cbProbe, Ev.cbWrite false,
      Ev.hret (some "boom"), Ev.cancel, Ev.aread]).final = some (some "boom") := by
  decide

/-- Claim C3 (amended): at the boundary the adapter returns exactly one of
the captured timeout write error or the handler's own result, chosen by
whether the timeout write failed: it returns the captured `TimeoutOutcome`
only when that outcome is a non-nil error, and otherwise returns the
handler's return value unchanged. -/
theorem c3_amended_boundary (cfg : Config) (t : List Ev) :
    ((run cfg t).timeoutErr.isSome = true ∧
      (run cfg (t ++ [Ev.aread])).final = some ((run cfg t).timeoutErr)) ∨
    ((run cfg t).timeoutErr = none ∧
      (run cfg (t ++ [Ev.aread])).final = some ((run cfg t).handlerErr)) := by
  have hrun : run cfg (t ++ [Ev.aread]) = step cfg (run cfg t) Ev.aread := by
    simp [run, List.foldl_append]
  cases h : (run cfg t).timeoutErr with
  | none =>
      right
      refine ⟨rfl, ?_⟩
      rw [hrun]
      simp [step, h]
  | some v =>
      left
      refine ⟨by simp [h], ?_⟩
      rw [hrun]
      simp [step, h]

/-- Claim C4 (counterexample): a handler that writes status 200 before the
deadline but returns only after it has elapsed runs at least as long as the
configured duration, yet the client receives the handler's 200 response,
not the configured timeout response. -/
theorem c4_counterexample :
    MainWF [Ev.hwrite 200 "ok", Ev.expire, Ev.cbProbe, Ev.cbWrite false,
      Ev.hret none, Ev.cancel, Ev.aread] ∧
    (run defaultConfig [Ev.hwrite 200 "ok", Ev.expire, Ev.cbProbe,
      Ev.cbWrite false, Ev.hret none, Ev.cancel, Ev.aread]).expired = true ∧
    (run defaultConfig [Ev.hwrite 200 "ok", Ev.expire, Ev.cbProbe,
      Ev.cbWrite false, Ev.hret none, Ev.cancel, Ev.aread]).response
        = some (200, "ok") ∧
    (run defaultConfig [Ev.hwrite 200 "ok", Ev.expire, Ev.cbProbe,
      Ev.cbWrite false, Ev.hret none, Ev.cancel, Ev.aread]).response
        ≠ some (408, "Request timeout") := by
  decide

/-- Claim C4 (amended): whenever the deadline elapses and the expiry
callback completes its successful timeout write before the handler performs
any write, the client receives exactly one response and it carries the
configured timeout status and message (408/"Request timeout" by default,
503/"too slow" for that custom configuration), and no write attempted
afterwards — in particular the handler's late write — is ever delivered. -/
theorem c4_amended_timeout_response (cfg : Config) (rest : List Ev) :
    (run cfg (Ev.expire :: Ev.cbProbe :: Ev.cbWrite false :: rest)).response
        = some (cfg.Code, cfg.Message) ∧
    (run cfg (Ev.expire :: Ev.cbProbe :: Ev.cbWrite false :: rest)).startEvents
        = 1 :=
  ⟨(timeoutPath_commits cfg rest).2.1, (timeoutPath_commits cfg rest).2.2⟩

/-- Claim C5: `isHeaderWritten` returns true exactly when the zero
write-deadline probe on the response controller fails, and once a write has
been committed to the sink the probe returns true for the remainder of the
request. -/
theorem c5_probe_correct :
    (∀ st : St, isHeaderWritten st = true ↔ setWriteDeadlineZero st ≠ none) ∧
    (∀ st : St, isHeaderWritten st = true ↔ st.started = true) ∧
    (∀ (cfg : Config) (t extra : List Ev), (run cfg t).started = true →
      isHeaderWritten (run cfg (t ++ extra)) = true) := by
  refine ⟨fun st => ?_, fun st => ?_, fun cfg t extra h => ?_⟩
  · simp [isHeaderWritten]
  · cases hs : st.started <;> simp [isHeaderWritten, setWriteDeadlineZero, hs]
  · have hsplit : run cfg (t ++ extra) = List.foldl (step cfg) (run cfg t) extra := by
      simp [run, List.foldl_append]
    rw [hsplit]
    have hs := foldl_pres cfg (fun st => st.started = true)
      (fun st e => started_sticky cfg st e) extra (run cfg t) h
    simp [isHeaderWritten, setWriteDeadlineZero, hs]

/-- Witness for C5: after the handler writes, the probe stays true. -/
theorem c5_probe_correct_w :
    (run defaultConfig [Ev.hwrite 200 "ok"]).started = true ∧
    isHeaderWritten (run defaultConfig
      ([Ev.hwrite 200 "ok"] ++ [Ev.expire, Ev.cbProbe])) = true :=
  ⟨by decide,
   c5_probe_correct.2.2 defaultConfig [Ev.hwrite 200 "ok"]
     [Ev.expire, Ev.cbProbe] (by decide)⟩

lemma step_cancel_of_cancelled (cfg : Config) (st : St)
    (h : st.cancelled = true) : step cfg st Ev.cancel = st := by
  cases st
  simp_all [step]

/-- Claim C6: the scope's cancel is idempotent: a second `cancel` anywhere
after a first one leaves the whole execution unchanged, cancelling an
already-cancelled scope is a no-op, and a cancelled scope never lets the
deadline expiry fire afterwards. -/
theorem c6_cancel_idempotent (cfg : Config) (pre post : List Ev) (st : St)
    (h : st.cancelled = true) :
    run cfg (pre ++ Ev.cancel :: Ev.cancel :: post)
      = run cfg (pre ++ Ev.cancel :: post) ∧
    step cfg st Ev.cancel = st ∧
    step cfg st Ev.expire = st := by
  refine ⟨?_, step_cancel_of_cancelled cfg st h, by simp [step, h]⟩
  simp only [run, List.foldl_append, List.foldl]
  rw [step_cancel_of_cancelled cfg _ (by simp [step])]

/-- Witness for C6 with a concrete cancelled state. -/
theorem c6_cancel_idempotent_w :
    (step defaultConfig initSt Ev.cancel).cancelled = true ∧
    (run defaultConfig ([] ++ Ev.cancel :: Ev.cancel :: [])
        = run defaultConfig ([] ++ Ev.cancel :: []) ∧
      step defaultConfig (step defaultConfig initSt Ev.cancel) Ev.cancel
        = step defaultConfig initSt Ev.cancel ∧
      step defaultConfig (step defaultConfig initSt Ev.cancel) Ev.expire
        = step defaultConfig initSt Ev.cancel) :=
  ⟨by decide,
   c6_cancel_idempotent defaultConfig [] []
     (step defaultConfig initSt Ev.cancel) (by decide)⟩

/-- Claim C7: called with no configuration argument, the middleware uses
duration 5 seconds (5000000000 ns), timeout status 408, and timeout message
"Request timeout". -/
theorem c7_default_config :
    sparkleConfig []
      = { Duration := 5 * timeSecond, Code := 408,
          Message := "Request timeout" } ∧
    (sparkleConfig []).Duration = 5000000000 :=
  ⟨rfl, rfl⟩

/-- Claim C8: in every well-formed execution, by the time the adapter
computes its return value the derived context has already been cancelled —
the `cancel()` call precedes the adapter's return, whichever path won. -/
theorem c8_timer_stopped_before_return (cfg : Config) (t1 t2 : List Ev)
    (h : MainWF (t1 ++ Ev.aread :: t2)) :
    (run cfg t1).cancelled = true := by
  unfold MainWF at h
  rw [phaseFold_append] at h
  rcases hp : phaseFold (some 0) t1 with _ | p
  · rw [hp, phaseFold_none] at h
    exact absurd h (by simp)
  · rw [hp, show (Ev.aread :: t2) = [Ev.aread] ++ t2 from rfl,
      phaseFold_append] at h
    have hone : phaseFold (some p) [Ev.aread] = mainPhase p Ev.aread := by
      simp [phaseFold, List.foldl]
    rw [hone] at h
    by_cases h2 : p = 2
    · subst h2
      exact (phase_run cfg t1 0 initSt (phaseInv_zero initSt) 2 hp).2.1 (by omega)
    · rw [show mainPhase p Ev.aread = none from by simp [mainPhase, h2],
        phaseFold_none] at h
      exact absurd h (by simp)

/-- Witness for C8 on a concrete well-formed trace. -/
theorem c8_timer_stopped_before_return_w :
    MainWF ([Ev.hret none, Ev.cancel] ++ Ev.aread :: []) ∧
    (run defaultConfig [Ev.hret none, Ev.cancel]).cancelled = true :=
  ⟨by decide,
   c8_timer_stopped_before_return defaultConfig [Ev.hret none, Ev.cancel] []
     (by decide)⟩

/-- Claim C9: an explicit `Config` replaces all three defaults wholesale: a
config setting only the duration leaves `Code = 0` and `Message = ""`, and
the expiry path then writes status 0 with an empty body instead of falling
back to 408/"Request timeout". -/
theorem c9_config_wholesale (d : Nat) (rest : List Ev) :
    sparkleConfig [{ Duration := d, Code := 0, Message := "" }]
      = { Duration := d, Code := 0, Message := "" } ∧
    (run (sparkleConfig [{ Duration := d, Code := 0, Message := "" }])
        (Ev.expire :: Ev.cbProbe :: Ev.cbWrite false :: rest)).response
      = some (0, "") :=
  ⟨rfl, (timeoutPath_commits _ rest).2.1⟩

end timeout

namespace reqid

/-- Embeds `reqid.Config` from `src/reqid/reqid.go`.  `GenFunc` is a Go
function value that may be nil, embedded as an `Option`. -/
structure Config where
  Header : String
  GenFunc : Option (Unit → String)

/-- The alphabet used by Go's `encoding/hex`. -/
def hexAlphabet : List Char := "0123456789abcdef".toList

/-- One lowercase hexadecimal digit. -/
def hexDigit (n : Nat) : Char := hexAlphabet.getD n '0'

/-- The character stream of `hex.EncodeToString`: two digits per byte, high
nibble first.  Bytes are `Nat` reduced modulo `2 ^ 8`. -/
def hexChars : List Nat → List Char
  | [] => []
  | b :: bs => hexDigit ((b % 256) / 16) :: hexDigit (b % 16) :: hexChars bs

/-- Go's `hex.EncodeToString`. -/
def hexEncodeToString (bs : List Nat) : String := String.mk (hexChars bs)

/-- Embeds `genID` from `src/reqid/reqid.go`: 16 bytes are read from
`crypto/rand` and hex encoded to a 32 character string.  The byte list
parameter models the bytes `rand.Read` fills in. -/
def genID (bs : List Nat) : String := hexEncodeToString bs

/-- The default generator installed by `Sparkle`, closing over the random
source. -/
def defaultGen (entropy : List Nat) : Unit → String := fun _ => genID entropy

/-- Embeds the variadic-config resolution at the top of `reqid.Sparkle`:
the default header and generator, replaced wholesale when a config is
supplied. -/
def sparkleConfig (entropy : List Nat) (config : List Config) : Config :=
  match config with
  | [] => { Header := "X-Request-ID", GenFunc := some (defaultGen entropy) }
  | c :: _ => c

/-- The observable writes of one `reqid` request: the response header set by
`c.SetHeader` and the context entry set by `c.Set`. -/
structure Out where
  respHeaderName : String
  respHeaderVal : String
  ctxKey : String
  ctxVal : String

/-- Embeds the per-request handler of `reqid.Sparkle`.  `getHeader` is the
request's `c.GetHeader` view (empty string when the header is absent).
Calling a nil `GenFunc` is a Go panic, embedded as `none`. -/
def handle (cfg : Config) (getHeader : String → String) : Option Out :=
  let id0 := getHeader cfg.Header
  let idOpt : Option String :=
    if id0 = "" then
      match cfg.GenFunc with
      | none => none
      | some g => some (g ())
    else some id0
  idOpt.map fun id =>
    { respHeaderName := cfg.Header, respHeaderVal := id
      ctxKey := "request_id", ctxVal := id }

lemma hexDigit_mem (n : Nat) : hexDigit n ∈ hexAlphabet := by
  unfold hexDigit List.getD
  rcases h : hexAlphabet[n]? with _ | c
  · simp [h]
    decide
  · simp [h]
    exact List.getElem?_mem h

lemma hexChars_length : ∀ bs : List Nat, (hexChars bs).length = 2 * bs.length
  | [] => rfl
  | b :: bs => by
      simp [hexChars, hexChars_length bs]
      omega

lemma hexChars_mem : ∀ (bs : List Nat), ∀ c ∈ hexChars bs, c ∈ hexAlphabet := by
  intro bs
  induction bs with
  | nil => intro c hc; simp [hexChars] at hc
  | cons b bs ih =>
      intro c hc
      simp only [hexChars, List.mem_cons] at hc
      rcases hc with h | h | h
      · exact h ▸ hexDigit_mem _
      · exact h ▸ hexDigit_mem _
      · exact ih c h

/-- Claim C10: an explicit `reqid.Config` replaces the whole default: with a
header name set but a nil `GenFunc`, any request arriving without that
header makes the middleware call a nil function — a crash.  Under the
default configuration the generated identifier is the hex encoding of the
16 random bytes, a 32 character string over the hexadecimal alphabet, and
the identical value is stored in the response header and under the context
key "request_id". -/
theorem c10_reqid (bs : List Nat) (h : bs.length = 16) :
    handle (sparkleConfig bs [{ Header := "X-Custom", GenFunc := none }])
      (fun _ => "") = none ∧
    (genID bs).length = 32 ∧
    (∀ c ∈ (genID bs).toList, c ∈ hexAlphabet) ∧
    handle (sparkleConfig bs []) (fun _ => "")
      = some { respHeaderName := "X-Request-ID", respHeaderVal := genID bs
               ctxKey := "request_id", ctxVal := genID bs } := by
  refine ⟨rfl, ?_, ?_, rfl⟩
  · show (hexChars bs).length = 32
    rw [hexChars_length, h]
  · intro c hc
    exact hexChars_mem bs c hc

/-- Witness for C10 with a concrete 16 byte entropy input. -/
theorem c10_reqid_w :
    (List.replicate 16 0).length = 16 ∧
    (handle (sparkleConfig (List.replicate 16 0)
        [{ Header := "X-Custom", GenFunc := none }]) (fun _ => "") = none ∧
      (genID (List.replicate 16 0)).length = 32 ∧
      (∀ c ∈ (genID (List.replicate 16 0)).toList, c ∈ hexAlphabet) ∧
      handle (sparkleConfig (List.replicate 16 0) []) (fun _ => "")
        = some { respHeaderName := "X-Request-ID"
                 respHeaderVal := genID (List.replicate 16 0)
                 ctxKey := "request_id", ctxVal := genID (List.replicate 16 0) }) :=
  ⟨by decide, c10_reqid (List.replicate 16 0) (by decide)⟩

end reqid
